import Mathlib

/-!
# timeoutsimulator: a shallow embedding

The Go packages `timeoutsimulator`, `clock`, `deadline` and `context` are
embedded as pure Lean functions.  Everything the Go code mutates or observes
outside its own arguments (the wall clock, the private state of the scheduled
`Function` values) lives in an explicit world `W` that is threaded through
every call.  Durations and instants are `int64` nanosecond counts, modelled as
`Int` with explicit two's-complement wrapping; `float64` values are exact
mantissa/exponent pairs with IEEE-754 rounding.  Tasks enter through the
`Function` interface; the goroutine race inside `function.SleepFunction` is
not part of the embedding.
-/

namespace timeoutsimulator

/-! ## Machine integers, durations, instants -/

/-- Two's-complement wrap of an integer into the `int64` range. -/
def wrap64 (x : Int) : Int :=
  (x + 9223372036854775808) % 18446744073709551616 - 9223372036854775808

/-- Membership in the `int64` range. -/
def inInt64 (x : Int) : Prop :=
  -9223372036854775808 ≤ x ∧ x < 9223372036854775808

instance (x : Int) : Decidable (inInt64 x) := by
  unfold inInt64
  infer_instance

/-- Go `time.Duration`: an `int64` count of nanoseconds. -/
abbrev Duration := Int

/-- Go `time.Time`, as the exact number of nanoseconds since the Unix epoch. -/
abbrev Time := Int

/-- Go `time.Millisecond`. -/
def Millisecond : Duration := 1000000

/-- Go `Time.UnixNano`: the instant as an `int64` (wrapping when out of range). -/
def UnixNano (t : Time) : Int := wrap64 t

/-- The zero `time.Time` (January 1, year 1, 00:00 UTC), returned by
`ctx.Deadline()` for a context that carries no deadline. -/
def zeroTime : Time := -62135596800000000000

/-! ## Contexts -/

/-- A non-nil Go `context.Context`, as far as this program observes one:
either it carries no deadline, or it carries a deadline instant.  A Go `ctx`
value that may be nil is an `Option Context`. -/
inductive Context where
  | background : Context
  | withDeadline (d : Time) : Context
  deriving DecidableEq, Repr

/-- Go `ctx.Deadline()`, first result: the deadline, or the zero time. -/
def Context.Deadline : Context → Time
  | .background => zeroTime
  | .withDeadline d => d

/-- Go `context.WithTimeout(parent, timeout)` for a non-nil parent: the child
expires at `time.Now() + timeout`, or at the parent's deadline when that one is
earlier.  `now` is the reading of `time.Now()`. -/
def WithTimeout (parent : Context) (timeout : Duration) (now : Time) : Context :=
  match parent with
  | .background => .withDeadline (now + timeout)
  | .withDeadline cur =>
    if cur < now + timeout then .withDeadline cur else .withDeadline (now + timeout)

/-! ## package clock / package deadline -/

/-- Go `clock.Time`: an object whose `Now()` reads the current instant.  Reading
the clock may change the world (time passes). -/
structure Clock (W : Type) where
  Now : W → Time × W

/-- Go `deadline.Deadline`. -/
structure Deadline (W : Type) where
  clock : Clock W

/-- Go `deadline.NewDeadline`. -/
def NewDeadline {W : Type} (clock : Clock W) : Deadline W :=
  { clock := clock }

/-- The arithmetic of `Deadline.GetInMillis`, on the two `UnixNano` readings:
`diffTime := unixTime - now; diffTime = diffTime / 1e6;
return time.Duration(diffTime) * time.Millisecond`, all in `int64`
(Go's `/` truncates toward zero). -/
def millisBetween (unixTime now : Int) : Duration :=
  let diffTime := wrap64 (unixTime - now)
  let diffTime := Int.tdiv diffTime 1000000
  wrap64 (diffTime * Millisecond)

/-- Go `Deadline.GetInMillis`. -/
def Deadline.GetInMillis {W : Type} (d : Deadline W) (ctx : Context) (w : W) :
    Duration × W :=
  let deadline := ctx.Deadline
  let unixTime := UnixNano deadline
  let r := d.clock.Now w
  (millisBetween unixTime (UnixNano r.1), r.2)

/-! ## package timeoutsimulator -/

/-- Go constant `RemarkFunctionNilContext`. -/
def RemarkFunctionNilContext : String := "Error nil context"

/-- Go constant `RemarkSimulatorTimeoutExceeded`. -/
def RemarkSimulatorTimeoutExceeded : String := "Exceed simulator timeout"

/-- Go interface `Function`.  `Run` receives the (possibly nil) context and may
change the world; the three getters read the receiver's current state. -/
structure Function (W : Type) where
  Run : Option Context → W → Bool × W
  Latency : W → Duration
  Remark : W → String
  String : W → String

/-- Go struct `Data`. -/
structure Data where
  Name : String
  Latency : Duration
  IsDeadlineExceeded : Bool
  TimeIn : Duration
  TimeOut : Duration
  Remark : String
  deriving DecidableEq, Repr

/-- Go struct `Result`. -/
structure Result where
  Name : String
  TimeoutDuration : Duration
  Data : List Data
  deriving DecidableEq, Repr

/-- Go struct `function`: a scheduled `Function` with its `isExecuted` flag. -/
structure function (W : Type) where
  Function : Function W
  isExecuted : Bool

/-- Go struct `Simulator`.  `functions` is the slice's backing array: `Start`
has a value receiver, but the copies of a `Simulator` share this array, so
writes to `isExecuted` are visible to later calls. -/
structure Simulator (W : Type) where
  name : String
  timeoutDuration : Duration
  functions : List (function W)
  deadline : Deadline W

/-- Go `NewSimulator`; `sysClock` is `clock.Clock{}`, whose `Now` is `time.Now`. -/
def NewSimulator {W : Type} (sysClock : Clock W) (n : String) (t : Duration)
    (fs : List (Function W)) : Simulator W :=
  { name := n
    timeoutDuration := t
    functions := fs.map (fun f => { Function := f, isExecuted := false })
    deadline := NewDeadline sysClock }

/-- One entry of the execution trace (instrumentation, not program state):
`Run` was called on `task`, the task at position `index` of the slice; the call
was entered in world `before`, and the task's record was assembled in world
`after`. -/
structure Call (W : Type) where
  index : Nat
  task : Function W
  before : W
  after : W

/-- What a loop over the task slice leaves behind. -/
structure LoopState (W : Type) where
  data : List Data
  functions : List (function W)
  world : W
  calls : List (Call W)

/-- The loop of `Simulator.run` over the tasks from position `i` on. -/
def runLoop {W : Type} (ctx : Context) :
    List (function W) → Nat → W → LoopState W
  | [], _, w => { data := [], functions := [], world := w, calls := [] }
  | f :: rest, i, w =>
    let r := f.Function.Run (some ctx) w
    let isDeadlineExceeded := r.1
    let w1 := r.2
    let rec_ : Data :=
      { Name := f.Function.String w1
        Latency := f.Function.Latency w1
        IsDeadlineExceeded := isDeadlineExceeded
        TimeIn := 0
        TimeOut := 0
        Remark := f.Function.Remark w1 }
    let tail := runLoop ctx rest (i + 1) w1
    { data := rec_ :: tail.data
      functions := { f with isExecuted := true } :: tail.functions
      world := tail.world
      calls := { index := i, task := f.Function, before := w, after := w1 } :: tail.calls }

/-- The first loop of `Simulator.runWithContext` over the tasks from position
`i` on; it stops after the first task whose `timeOut` is exactly zero. -/
def execLoop {W : Type} (d : Deadline W) (ctx : Context) :
    List (function W) → Nat → W → LoopState W
  | [], _, w => { data := [], functions := [], world := w, calls := [] }
  | f :: rest, i, w =>
    let tIn := d.GetInMillis ctx w
    let timeIn := tIn.1
    let r := f.Function.Run (some ctx) tIn.2
    let isDeadlineExceeded := r.1
    let tOut := d.GetInMillis ctx r.2
    let timeOut := tOut.1
    let w3 := tOut.2
    let rec_ : Data :=
      { Name := f.Function.String w3
        Latency := f.Function.Latency w3
        IsDeadlineExceeded := isDeadlineExceeded
        TimeIn := timeIn
        TimeOut := timeOut
        Remark := f.Function.Remark w3 }
    if timeOut = 0 then
      { data := [rec_]
        functions := { f with isExecuted := true } :: rest
        world := w3
        calls := [{ index := i, task := f.Function, before := tIn.2, after := w3 }] }
    else
      let tail := execLoop d ctx rest (i + 1) w3
      { data := rec_ :: tail.data
        functions := { f with isExecuted := true } :: tail.functions
        world := tail.world
        calls := { index := i, task := f.Function, before := tIn.2, after := w3 } :: tail.calls }

/-- The record the second loop of `Simulator.runWithContext` appends for a task
it finds not executed. -/
def skippedData {W : Type} (w : W) (f : Function W) : Data :=
  { Name := f.String w
    Latency := f.Latency w
    IsDeadlineExceeded := true
    TimeIn := 0
    TimeOut := 0
    Remark := RemarkSimulatorTimeoutExceeded }

/-- The second loop of `Simulator.runWithContext`: one record for every task
whose `isExecuted` flag is not set. -/
def skipLoop {W : Type} (w : W) : List (function W) → List Data
  | [] => []
  | f :: rest =>
    if f.isExecuted then skipLoop w rest
    else skippedData w f.Function :: skipLoop w rest

/-- What `Start` leaves behind: the returned `Result`, the simulator with its
(shared) task array as the call left it, the world, and the trace of `Run`
calls. -/
structure Outcome (W : Type) where
  result : Result
  sim : Simulator W
  world : W
  calls : List (Call W)

/-- Go `Simulator.run`. -/
def Simulator.run {W : Type} (s : Simulator W) (w : W) : Outcome W :=
  let ctx := Context.background
  let st := runLoop ctx s.functions 0 w
  { result := { Name := s.name, TimeoutDuration := s.timeoutDuration, Data := st.data }
    sim := { s with functions := st.functions }
    world := st.world
    calls := st.calls }

/-- Go `Simulator.runWithContext`; `sysClock` is the clock `context.WithTimeout`
reads (`time.Now`). -/
def Simulator.runWithContext {W : Type} (sysClock : Clock W) (s : Simulator W) (w : W) :
    Outcome W :=
  let n := sysClock.Now w
  let ctx := WithTimeout Context.background s.timeoutDuration n.1
  let st := execLoop s.deadline ctx s.functions 0 n.2
  let data := st.data ++ skipLoop st.world st.functions
  { result := { Name := s.name, TimeoutDuration := s.timeoutDuration, Data := data }
    sim := { s with functions := st.functions }
    world := st.world
    calls := st.calls }

/-- Go `Simulator.Start`. -/
def Simulator.Start {W : Type} (sysClock : Clock W) (s : Simulator W) (w : W) :
    Outcome W :=
  if s.timeoutDuration = 0 then s.run w else s.runWithContext sysClock w

/-! ## Reading a result -/

/-- The shape of a record written for a task that was skipped. -/
def Data.isSkipped (x : Data) : Prop :=
  x.IsDeadlineExceeded = true ∧ x.TimeIn = 0 ∧ x.TimeOut = 0 ∧
    x.Remark = RemarkSimulatorTimeoutExceeded

/-- A record of a timed run agrees with the call that produced it. -/
def Call.recordedBy {W : Type} (c : Call W) (x : Data) : Prop :=
  x.Name = c.task.String c.after ∧ x.Latency = c.task.Latency c.after ∧
    x.Remark = c.task.Remark c.after

/-- A record carries the name and the latency of a task (as the task reports
them in some world of the run). -/
def Function.namedIn {W : Type} (f : Function W) (x : Data) : Prop :=
  ∃ w : W, x.Name = f.String w ∧ x.Latency = f.Latency w

/-! ## float64, as far as `WeightedContext.Get` uses it -/

/-- A finite IEEE-754 binary64 value, written `m * 2 ^ e`.  A float64 has
`|m| < 2 ^ 53` and `-1074 ≤ e ≤ 971`; infinities and NaN are not represented. -/
structure F64 where
  m : Int
  e : Int
  deriving DecidableEq, Repr

/-- The rational number a float denotes. -/
def F64.toRat (x : F64) : ℚ := (x.m : ℚ) * (2 : ℚ) ^ x.e

/-- Number of binary digits of a natural number (`fuel` bounds the recursion). -/
def bitLengthAux : Nat → Nat → Nat
  | 0, _ => 0
  | fuel + 1, a => if a = 0 then 0 else bitLengthAux fuel (a / 2) + 1

/-- Number of binary digits of a natural number. -/
def bitLength (a : Nat) : Nat := bitLengthAux a a

/-- IEEE-754 rounding of the exact value `m * 2 ^ e` to 53 significant bits,
to nearest, ties to even (Go's only rounding mode). -/
def F64.round (m e : Int) : F64 :=
  let a := m.natAbs
  let n := bitLength a
  if n ≤ 53 then { m := m, e := e }
  else
    let s := n - 53
    let q := a / 2 ^ s
    let r := a % 2 ^ s
    let half := 2 ^ (s - 1)
    let q1 := if half < r ∨ (r = half ∧ q % 2 = 1) then q + 1 else q
    { m := Int.sign m * q1, e := e + s }

/-- Go `float64(i)` for an `int64` value `i`. -/
def F64.ofInt64 (i : Int) : F64 := F64.round i 0

/-- Go `x * y` on float64: the exact product, rounded.  (Results beyond the
largest finite float64 are not modelled.) -/
def F64.mul (x y : F64) : F64 := F64.round (x.m * y.m) (x.e + y.e)

/-- The value of a float with its fraction discarded (truncation toward zero). -/
def F64.trunc (x : F64) : Int :=
  if 0 ≤ x.e then x.m * 2 ^ x.e.toNat else Int.tdiv x.m (2 ^ (-x.e).toNat)

/-- Go `int64(f)` / `time.Duration(f)` for a float64 `f`: the fraction is
discarded.  When the truncated value does not fit `int64` the Go specification
leaves the result to the implementation; the value used here is the one amd64
produces. -/
def F64.toInt64 (x : F64) : Int :=
  if -9223372036854775808 ≤ x.trunc ∧ x.trunc < 9223372036854775808 then x.trunc
  else -9223372036854775808

/-! ## package context -/

/-- Go struct `WeightedContext`. -/
structure WeightedContext (W : Type) where
  timeoutThreshold : Duration
  weight : F64
  isPriority : Bool
  budget : Duration
  deadline : Deadline W

/-- Go `NewWeightedContext`; `sysClock` is `clock.Clock{}`. -/
def NewWeightedContext {W : Type} (sysClock : Clock W) (timeoutThreshold : Duration)
    (weight : F64) (isPriority : Bool) : WeightedContext W :=
  { timeoutThreshold := timeoutThreshold
    weight := weight
    isPriority := isPriority
    budget := 0
    deadline := NewDeadline sysClock }

/-- Go `WeightedContext.Get`: the derived context, the receiver as the call
leaves it, and the world.  (The returned cancel function is not modelled.) -/
def WeightedContext.Get {W : Type} (sysClock : Clock W) (c : WeightedContext W)
    (ctx : Option Context) (w : W) : Option Context × WeightedContext W × W :=
  match ctx with
  | none => (none, c, w)
  | some ctx =>
    let t := c.deadline.GetInMillis ctx w
    let timeout := t.1
    let newTimeout := F64.toInt64 (F64.mul (F64.ofInt64 timeout) c.weight)
    let newTimeout :=
      if newTimeout < c.timeoutThreshold ∧ c.isPriority = true then timeout else newTimeout
    let n := sysClock.Now t.2
    (some (WithTimeout ctx newTimeout n.1), { c with budget := newTimeout }, n.2)

/-- Go `WeightedContext.Budget`. -/
def WeightedContext.Budget {W : Type} (c : WeightedContext W) : Duration := c.budget

/-- Go struct `TimeOutContext`. -/
structure TimeOutContext where
  timeOut : Duration
  budget : Duration
  deriving DecidableEq, Repr

/-- Go `NewTimeOutContext`. -/
def NewTimeOutContext (timeOut : Duration) : TimeOutContext :=
  { timeOut := timeOut, budget := 0 }

/-- Go `TimeOutContext.Get`: the derived context, the receiver as the call
leaves it, and the world.  (The returned cancel function is not modelled.) -/
def TimeOutContext.Get {W : Type} (sysClock : Clock W) (t : TimeOutContext)
    (ctx : Option Context) (w : W) : Option Context × TimeOutContext × W :=
  match ctx with
  | none => (none, t, w)
  | some ctx =>
    let n := sysClock.Now w
    (some (WithTimeout ctx t.timeOut n.1), { t with budget := t.timeOut }, n.2)

/-- Go `TimeOutContext.Budget`. -/
def TimeOutContext.Budget (t : TimeOutContext) : Duration := t.budget

/-- The float64 product `float64(timeout) * w.weight` that `WeightedContext.Get`
computes before converting it back to a `time.Duration`. -/
def weightedSlice (timeout : Duration) (weight : F64) : F64 :=
  F64.mul (F64.ofInt64 timeout) weight

/-! ## The specification's wording, for comparison -/

/-- The remaining budget as the specification words it: deadline minus now,
floor-divided to whole milliseconds. -/
def specFloorMillis (d n : Int) : Duration :=
  Int.fdiv (d - n) 1000000 * Millisecond

/-- The weighted budget as the specification words it:
`floor(parentRemaining * weight)`, in nanoseconds. -/
def specFloorBudget (parentRemaining : Duration) (weight : F64) : Int :=
  ⌊(parentRemaining : ℚ) * weight.toRat⌋

/-- The float64 nearest to 0.2. -/
def f64_0_2 : F64 := { m := 7205759403792794, e := -55 }

/-- The float64 0.5. -/
def f64_0_5 : F64 := { m := 1, e := -1 }

/-- The float64 nearest to 0.3. -/
def f64_0_3 : F64 := { m := 5404319552844595, e := -54 }

/-- The float64 nearest to 0.6. -/
def f64_0_6 : F64 := { m := 5404319552844595, e := -53 }

/-! ## A concrete world for examples -/

/-- A world with a wall clock and a count of the `Run` calls made so far. -/
structure SimWorld where
  now : Time
  runs : Nat
  deriving DecidableEq, Repr

/-- A clock that reads `SimWorld.now`. -/
def simClock : Clock SimWorld :=
  { Now := fun w => (w.now, w) }

/-- A task without budget strategy: its `Run` lets `latency` pass and reports
no overrun. -/
def sleeper (name : String) (latency : Duration) : Function SimWorld :=
  { Run := fun _ w => (false, { now := w.now + latency, runs := w.runs + 1 })
    Latency := fun _ => latency
    Remark := fun _ => ""
    String := fun _ => name }

/-- A task whose first `Run` takes `fast` and whose later runs take `slow`. -/
def warmup (name : String) (fast slow : Duration) : Function SimWorld :=
  { Run := fun _ w =>
      (false, { now := w.now + (if w.runs = 0 then fast else slow), runs := w.runs + 1 })
    Latency := fun _ => fast
    Remark := fun _ => ""
    String := fun _ => name }


/-! ## Helper lemmas: lists -/

/-- The first element satisfying `p` splits a list in only one way. -/
theorem first_split_unique {α : Type} (p : α → Prop) :
    ∀ (a pre : List α) (z x : α) (s post : List α),
      a ++ z :: s = pre ++ x :: post →
      (∀ y ∈ a, ¬ p y) → p z → (∀ y ∈ pre, ¬ p y) → p x →
      pre = a ∧ x = z ∧ post = s := by
  intro a
  induction a with
  | nil =>
    intro pre z x s post h _ hz hpre hx
    cases pre with
    | nil =>
      simp only [List.nil_append, List.cons.injEq] at h
      exact ⟨rfl, h.1.symm, h.2.symm⟩
    | cons y pre =>
      simp only [List.nil_append, List.cons_append, List.cons.injEq] at h
      exact absurd (h.1 ▸ hz) (hpre y (List.mem_cons_self _ _))
  | cons b a ih =>
    intro pre z x s post h ha hz hpre hx
    cases pre with
    | nil =>
      simp only [List.nil_append, List.cons_append, List.cons.injEq] at h
      exact absurd (h.1 ▸ hx) (ha b (List.mem_cons_self _ _))
    | cons y pre =>
      simp only [List.cons_append, List.cons.injEq] at h
      obtain ⟨h1, h2, h3⟩ := ih pre z x s post h.2
        (fun y hy => ha y (List.mem_cons_of_mem _ hy)) hz
        (fun y hy => hpre y (List.mem_cons_of_mem _ hy)) hx
      exact ⟨by rw [h.1, h1], h2, h3⟩

/-! ## Helper lemmas: the loops of the simulator -/

/-- The task slice `NewSimulator` builds. -/
theorem NewSimulator_functions {W : Type} (clk : Clock W) (n : String) (t : Duration)
    (fs : List (Function W)) :
    (NewSimulator clk n t fs).functions =
      fs.map (fun f => ({ Function := f, isExecuted := false } : function W)) := rfl

/-- On a slice without any flag set, the second loop writes one record per task. -/
theorem skipLoop_fresh {W : Type} (w : W) (fs : List (Function W)) :
    skipLoop w (fs.map (fun f => ({ Function := f, isExecuted := false } : function W))) =
      fs.map (skippedData w) := by
  induction fs with
  | nil => rfl
  | cons f rest ih => simp [skipLoop, ih]

/-- Every record the second loop writes has the skipped shape. -/
theorem skippedData_isSkipped {W : Type} (w : W) (f : Function W) :
    (skippedData w f).isSkipped := by
  simp [skippedData, Data.isSkipped]

/-- What the first loop of a timed run does on a fresh slice, for every start
position: the tasks run are a prefix, in order; the records match the calls;
the second loop then covers exactly the tasks not run; and either no record has
a zero `TimeOut` and all tasks ran, or the last record is the only one with a
zero `TimeOut`. -/
theorem execLoop_fresh {W : Type} (d : Deadline W) (ctx : Context) :
    ∀ (fs : List (Function W)) (i : Nat) (w : W),
      let st := execLoop d ctx
        (fs.map (fun f => ({ Function := f, isExecuted := false } : function W))) i w
      st.calls.length ≤ fs.length ∧
      st.data.length = st.calls.length ∧
      st.calls.map Call.index = List.range' i st.calls.length ∧
      st.calls.map Call.task = fs.take st.calls.length ∧
      List.Forall₂ Call.recordedBy st.calls st.data ∧
      skipLoop st.world st.functions = (fs.drop st.calls.length).map (skippedData st.world) ∧
      ((st.calls.length = fs.length ∧ ∀ x ∈ st.data, x.TimeOut ≠ 0) ∨
        (∃ a z, st.data = a ++ [z] ∧ (∀ y ∈ a, y.TimeOut ≠ 0) ∧ z.TimeOut = 0)) := by
  intro fs
  induction fs with
  | nil =>
    intro i w
    simp [execLoop, skipLoop]
  | cons f rest ih =>
    intro i w
    simp only [List.map_cons, execLoop]
    split
    · rename_i hz
      refine ⟨by simp, by simp, by simp [List.range'], by simp, ?_, ?_, ?_⟩
      · exact List.Forall₂.cons ⟨rfl, rfl, rfl⟩ List.Forall₂.nil
      · simp [skipLoop, skipLoop_fresh]
      · exact Or.inr ⟨[], _, rfl, by simp, hz⟩
    · rename_i hz
      obtain ⟨h1, h2, h3, h4, h5, h6, h7⟩ := ih (i + 1)
        (d.GetInMillis ctx (f.Run (some ctx) (d.GetInMillis ctx w).2).2).2
      refine ⟨by simpa using h1, by simpa using h2, ?_, ?_, ?_, ?_, ?_⟩
      · simp only [List.map_cons, List.length_cons, List.range'_succ, h3]
      · simp only [List.map_cons, List.length_cons, List.take_succ_cons, h4]
      · exact List.Forall₂.cons ⟨rfl, rfl, rfl⟩ h5
      · simpa [skipLoop] using h6
      · rcases h7 with ⟨hk, hall⟩ | ⟨a, z, hd, ha, hzz⟩
        · left
          refine ⟨by simp [hk], ?_⟩
          intro x hx
          rcases List.mem_cons.1 hx with rfl | hx
          · exact hz
          · exact hall x hx
        · right
          dsimp only
          rw [hd]
          refine ⟨_, z, (List.cons_append _ _ _).symm, ?_, hzz⟩
          intro y hy
          rcases List.mem_cons.1 hy with rfl | hy
          · exact hz
          · exact ha y hy

/-- Records that agree with their calls carry the names and latencies of the
tasks called. -/
theorem namedIn_of_recordedBy {W : Type} :
    ∀ (calls : List (Call W)) (data : List Data),
      List.Forall₂ Call.recordedBy calls data →
      List.Forall₂ Function.namedIn (calls.map Call.task) data := by
  intro calls data h
  induction h with
  | nil => exact List.Forall₂.nil
  | cons hcx _ ih => exact List.Forall₂.cons ⟨_, hcx.1, hcx.2.1⟩ ih

/-- Skip records carry the names and latencies of the tasks skipped. -/
theorem namedIn_skipped {W : Type} (w : W) (fs : List (Function W)) :
    List.Forall₂ Function.namedIn fs (fs.map (skippedData w)) := by
  induction fs with
  | nil => exact List.Forall₂.nil
  | cons f rest ih => exact List.Forall₂.cons ⟨w, rfl, rfl⟩ ih

/-- What the loop of an untimed run does, for every start position and every
setting of the flags: every task is run, in order, each in the world the
previous one left, and every record has zero `TimeIn` and `TimeOut`. -/
theorem runLoop_spec {W : Type} (ctx : Context) :
    ∀ (fns : List (function W)) (i : Nat) (w : W),
      let st := runLoop ctx fns i w
      st.calls.length = fns.length ∧
      st.data.length = fns.length ∧
      st.calls.map Call.index = List.range' i fns.length ∧
      st.calls.map Call.task = fns.map function.Function ∧
      List.Forall₂ Call.recordedBy st.calls st.data ∧
      (∀ x ∈ st.data, x.TimeIn = 0 ∧ x.TimeOut = 0) ∧
      List.Forall₂ (fun c x =>
          x.IsDeadlineExceeded = (c.task.Run (some ctx) c.before).1 ∧
          c.after = (c.task.Run (some ctx) c.before).2) st.calls st.data ∧
      st.calls.map Call.before = (w :: st.calls.map Call.after).dropLast := by
  intro fns
  induction fns with
  | nil =>
    intro i w
    simp [runLoop]
  | cons f rest ih =>
    intro i w
    obtain ⟨h1, h2, h3, h4, h5, h6, h7, h8⟩ := ih (i + 1) (f.Function.Run (some ctx) w).2
    simp only [runLoop]
    refine ⟨by simp [h1], by simp [h2], ?_, ?_, ?_, ?_, ?_, ?_⟩
    · simp only [List.map_cons, List.length_cons, List.range'_succ, h3]
    · simp only [List.map_cons, h4]
    · exact List.Forall₂.cons ⟨rfl, rfl, rfl⟩ h5
    · intro x hx
      rcases List.mem_cons.1 hx with rfl | hx
      · exact ⟨rfl, rfl⟩
      · exact h6 x hx
    · exact List.Forall₂.cons ⟨rfl, rfl⟩ h7
    · simp only [List.map_cons, h8, List.dropLast_cons₂]

/-! ## The simulator's claims -/

/-- C1: in a timed run (`t ≠ 0`) of `Start` on a freshly constructed simulator,
over every task list, every world and every clock, if `x` is the first record
with `TimeOut = 0` then every record after it is a skip record
(`IsDeadlineExceeded = true`, `TimeIn = 0`, `TimeOut = 0`, the
simulator-timeout remark), and `Run` was called on no task placed after the
task of `x`: the calls are exactly those of the tasks up to that one, in
order. -/
theorem C1_first_zero_timeout_then_skipped {W : Type} (clk : Clock W) (n : String)
    (t : Duration) (fs : List (Function W)) (w : W) (ht : t ≠ 0)
    (pre post : List Data) (x : Data)
    (hsplit : ((NewSimulator clk n t fs).Start clk w).result.Data = pre ++ x :: post)
    (hpre : ∀ y ∈ pre, y.TimeOut ≠ 0) (hx : x.TimeOut = 0) :
    (∀ y ∈ post, y.IsDeadlineExceeded = true ∧ y.TimeIn = 0 ∧ y.TimeOut = 0 ∧
        y.Remark = RemarkSimulatorTimeoutExceeded) ∧
    (∀ c ∈ ((NewSimulator clk n t fs).Start clk w).calls, c.index ≤ pre.length) ∧
    ((NewSimulator clk n t fs).Start clk w).calls.map Call.index =
      List.range (pre.length + 1) ∧
    ((NewSimulator clk n t fs).Start clk w).calls.map Call.task =
      fs.take (pre.length + 1) := by
  have hstart : (NewSimulator clk n t fs).Start clk w =
      (NewSimulator clk n t fs).runWithContext clk w := by
    simp only [Simulator.Start]
    rw [if_neg]
    exact ht
  rw [hstart] at hsplit ⊢
  simp only [Simulator.runWithContext, NewSimulator_functions] at hsplit ⊢
  obtain ⟨_, h2, h3, h4, _, h6, h7⟩ := execLoop_fresh (NewSimulator clk n t fs).deadline
    (WithTimeout Context.background t (clk.Now w).1) fs 0 (clk.Now w).2
  simp only [NewSimulator] at h2 h3 h4 h6 h7 hsplit ⊢
  rw [h6] at hsplit
  rcases h7 with ⟨hk, hall⟩ | ⟨a, z, hd, ha, hz⟩
  · rw [hk, List.drop_length, List.map_nil, List.append_nil] at hsplit
    exact absurd hx (hall x (by rw [hsplit]; simp))
  · rw [hd, List.append_assoc, List.singleton_append] at hsplit
    obtain ⟨e1, _, e3⟩ := first_split_unique (fun y : Data => y.TimeOut = 0) a pre z x _ post
      hsplit ha hz hpre hx
    have hlen : (execLoop (NewDeadline clk) (WithTimeout Context.background t (clk.Now w).1)
        (List.map (fun f => ({ Function := f, isExecuted := false } : function W)) fs) 0
        (clk.Now w).2).calls.length = pre.length + 1 := by
      rw [← h2, hd, e1]
      simp
    rw [hlen] at h3 h4
    refine ⟨?_, ?_, ?_, h4⟩
    · intro y hy
      rw [e3] at hy
      obtain ⟨f, _, rfl⟩ := List.mem_map.1 hy
      exact skippedData_isSkipped _ f
    · intro c hc
      have hmem : c.index ∈ List.range' 0 (pre.length + 1) := by
        rw [← h3]
        exact List.mem_map_of_mem _ hc
      rw [List.mem_range'_1] at hmem
      omega
    · rw [h3, List.range_eq_range']

/-- C1, instantiated: three sleeping tasks of 10ms, 90ms and 5ms under an outer
timeout of 100ms; the second record is the first with `TimeOut = 0`. -/
theorem C1_first_zero_timeout_then_skipped_witness :
    (∀ y ∈ [skippedData (⟨100000000, 2⟩ : SimWorld) (sleeper "c" 5000000)],
        y.IsDeadlineExceeded = true ∧ y.TimeIn = 0 ∧ y.TimeOut = 0 ∧
          y.Remark = RemarkSimulatorTimeoutExceeded) ∧
    (∀ c ∈ ((NewSimulator simClock "s" 100000000
        [sleeper "a" 10000000, sleeper "b" 90000000, sleeper "c" 5000000]).Start simClock
        ⟨0, 0⟩).calls, c.index ≤ 1) ∧
    ((NewSimulator simClock "s" 100000000
        [sleeper "a" 10000000, sleeper "b" 90000000, sleeper "c" 5000000]).Start simClock
        ⟨0, 0⟩).calls.map Call.index = List.range 2 ∧
    ((NewSimulator simClock "s" 100000000
        [sleeper "a" 10000000, sleeper "b" 90000000, sleeper "c" 5000000]).Start simClock
        ⟨0, 0⟩).calls.map Call.task =
      [sleeper "a" 10000000, sleeper "b" 90000000] :=
  C1_first_zero_timeout_then_skipped simClock "s" 100000000
    [sleeper "a" 10000000, sleeper "b" 90000000, sleeper "c" 5000000] ⟨0, 0⟩ (by decide)
    [{ Name := "a", Latency := 10000000, IsDeadlineExceeded := false, TimeIn := 100000000,
       TimeOut := 90000000, Remark := "" }]
    [skippedData (⟨100000000, 2⟩ : SimWorld) (sleeper "c" 5000000)]
    { Name := "b", Latency := 90000000, IsDeadlineExceeded := false, TimeIn := 90000000,
      TimeOut := 0, Remark := "" }
    (by decide) (by decide) (by decide)

/-- C3: `Start` on a freshly constructed simulator (timed or untimed) with task
list `fs` returns the constructor's name and timeout and exactly `fs.length`
records; the `i`-th record carries the name and latency of `fs[i]`; the tasks
run are the first `k` tasks, in order, their records come first and agree with
the calls, and the remaining records are the skip records of the remaining
tasks, in order. -/
theorem C3_records_follow_configuration {W : Type} (clk : Clock W) (n : String)
    (t : Duration) (fs : List (Function W)) (w : W) :
    ((NewSimulator clk n t fs).Start clk w).result.Name = n ∧
    ((NewSimulator clk n t fs).Start clk w).result.TimeoutDuration = t ∧
    ((NewSimulator clk n t fs).Start clk w).result.Data.length = fs.length ∧
    List.Forall₂ Function.namedIn fs ((NewSimulator clk n t fs).Start clk w).result.Data ∧
    ∃ k, k ≤ fs.length ∧
      ((NewSimulator clk n t fs).Start clk w).calls.map Call.index = List.range k ∧
      ((NewSimulator clk n t fs).Start clk w).calls.map Call.task = fs.take k ∧
      List.Forall₂ Call.recordedBy ((NewSimulator clk n t fs).Start clk w).calls
        (((NewSimulator clk n t fs).Start clk w).result.Data.take k) ∧
      ((NewSimulator clk n t fs).Start clk w).result.Data.drop k =
        (fs.drop k).map (skippedData ((NewSimulator clk n t fs).Start clk w).world) := by
  by_cases ht : t = 0
  · have hstart : (NewSimulator clk n t fs).Start clk w = (NewSimulator clk n t fs).run w := by
      simp only [Simulator.Start]
      rw [if_pos]
      exact ht
    rw [hstart]
    simp only [Simulator.run, NewSimulator_functions]
    obtain ⟨h1, h2, h3, h4, h5, -, -, -⟩ := runLoop_spec Context.background
      (fs.map (fun f => ({ Function := f, isExecuted := false } : function W))) 0 w
    simp only [List.length_map, List.map_map] at h1 h2 h3 h4
    have h4f : List.map Call.task (runLoop Context.background
        (fs.map (fun f => ({ Function := f, isExecuted := false } : function W))) 0 w).calls = fs := by
      rw [h4]
      exact List.map_id fs
    refine ⟨rfl, rfl, h2, ?_, fs.length, le_refl _, ?_, ?_, ?_, ?_⟩
    · have := namedIn_of_recordedBy _ _ h5
      rwa [h4f] at this
    · rw [h3, List.range_eq_range']
    · rw [h4f, List.take_length]
    · rw [← h2, List.take_length]
      exact h5
    · rw [← h2, List.drop_length, h2, List.drop_length, List.map_nil]
  · have hstart : (NewSimulator clk n t fs).Start clk w =
        (NewSimulator clk n t fs).runWithContext clk w := by
      simp only [Simulator.Start]
      rw [if_neg]
      exact ht
    rw [hstart]
    simp only [Simulator.runWithContext, NewSimulator_functions]
    obtain ⟨h1, h2, h3, h4, h5, h6, -⟩ := execLoop_fresh (NewSimulator clk n t fs).deadline
      (WithTimeout Context.background t (clk.Now w).1) fs 0 (clk.Now w).2
    simp only [NewSimulator] at h1 h2 h3 h4 h5 h6 ⊢
    rw [h6]
    refine ⟨trivial, trivial, ?_, ?_, _, h1, ?_, h4, ?_, ?_⟩
    · rw [List.length_append, List.length_map, List.length_drop, h2]
      omega
    · have hn := namedIn_of_recordedBy _ _ h5
      rw [h4] at hn
      have hs := namedIn_skipped (execLoop (NewDeadline clk)
        (WithTimeout Context.background t (clk.Now w).1)
        (List.map (fun f => ({ Function := f, isExecuted := false } : function W)) fs) 0
        (clk.Now w).2).world (fs.drop (execLoop (NewDeadline clk)
        (WithTimeout Context.background t (clk.Now w).1)
        (List.map (fun f => ({ Function := f, isExecuted := false } : function W)) fs) 0
        (clk.Now w).2).calls.length)
      have happ := List.rel_append hn hs
      dsimp only at happ
      rwa [List.take_append_drop] at happ
    · rw [h3, List.range_eq_range']
    · rw [List.take_left' h2]
      exact h5
    · rw [List.drop_left' h2]

/-- C4: `Start` on a simulator constructed with outer timeout `0` runs every
task exactly once, in order, each in the world its predecessor left (no early
halt, whatever the tasks report), and returns one record per task with
`TimeIn = 0` and `TimeOut = 0`, whose `IsDeadlineExceeded` is what the task's
`Run` returned and whose `Remark` is what the task's `Remark` returns right
after that run. -/
theorem C4_untimed_runs_all {W : Type} (clk : Clock W) (n : String)
    (fs : List (Function W)) (w : W) :
    ((NewSimulator clk n 0 fs).Start clk w).calls.map Call.index = List.range fs.length ∧
    ((NewSimulator clk n 0 fs).Start clk w).calls.map Call.task = fs ∧
    ((NewSimulator clk n 0 fs).Start clk w).calls.map Call.before =
      (w :: ((NewSimulator clk n 0 fs).Start clk w).calls.map Call.after).dropLast ∧
    ((NewSimulator clk n 0 fs).Start clk w).result.Data.length = fs.length ∧
    (∀ x ∈ ((NewSimulator clk n 0 fs).Start clk w).result.Data, x.TimeIn = 0 ∧ x.TimeOut = 0) ∧
    List.Forall₂ (fun c x =>
        x.IsDeadlineExceeded = (c.task.Run (some Context.background) c.before).1 ∧
        c.after = (c.task.Run (some Context.background) c.before).2 ∧
        x.Remark = c.task.Remark c.after ∧
        x.Name = c.task.String c.after ∧ x.Latency = c.task.Latency c.after)
      ((NewSimulator clk n 0 fs).Start clk w).calls
      ((NewSimulator clk n 0 fs).Start clk w).result.Data := by
  have hstart : (NewSimulator clk n 0 fs).Start clk w = (NewSimulator clk n 0 fs).run w := by
    simp [Simulator.Start, NewSimulator]
  rw [hstart]
  simp only [Simulator.run, NewSimulator_functions]
  obtain ⟨-, h2, h3, h4, h5, h6, h7, h8⟩ := runLoop_spec Context.background
    (fs.map (fun f => ({ Function := f, isExecuted := false } : function W))) 0 w
  simp only [List.length_map, List.map_map] at h2 h3 h4
  refine ⟨?_, ?_, h8, h2, h6, ?_⟩
  · rw [h3, List.range_eq_range']
  · rw [h4]
    exact List.map_id fs
  · generalize (runLoop Context.background
      (fs.map (fun f => ({ Function := f, isExecuted := false } : function W))) 0 w).calls = cs
      at h5 h7
    generalize (runLoop Context.background
      (fs.map (fun f => ({ Function := f, isExecuted := false } : function W))) 0 w).data = ds
      at h5 h7
    induction h5 with
    | nil => exact List.Forall₂.nil
    | cons hcx _ ih =>
      cases h7 with
      | cons h7a h7b =>
        exact List.Forall₂.cons ⟨h7a.1, h7a.2, hcx.2.2, hcx.1, hcx.2.1⟩ (ih h7b)

/-- C2, evaluated where the claim fails: under an outer timeout of 100ms the
second of three sleeping tasks (10ms, 200ms, 5ms) ends with `timeOut = -110ms`,
strictly negative.  The loop does not halt: `Run` is called on the third task
as well, and its record is an ordinary one with negative `TimeIn` and
`TimeOut`, not a skip record. -/
theorem C2_negative_timeout_keeps_running :
    ((NewSimulator simClock "s" 100000000
        [sleeper "a" 10000000, sleeper "b" 200000000, sleeper "c" 5000000]).Start simClock
        ⟨0, 0⟩).calls.map Call.index = [0, 1, 2] ∧
    ((NewSimulator simClock "s" 100000000
        [sleeper "a" 10000000, sleeper "b" 200000000, sleeper "c" 5000000]).Start simClock
        ⟨0, 0⟩).result.Data =
      [{ Name := "a", Latency := 10000000, IsDeadlineExceeded := false,
         TimeIn := 100000000, TimeOut := 90000000, Remark := "" },
       { Name := "b", Latency := 200000000, IsDeadlineExceeded := false,
         TimeIn := 90000000, TimeOut := -110000000, Remark := "" },
       { Name := "c", Latency := 5000000, IsDeadlineExceeded := false,
         TimeIn := -110000000, TimeOut := -115000000, Remark := "" }] := by
  decide

/-- C10, evaluated where the claim fails: a timed simulator with two tasks is
started twice.  The first call runs both tasks and returns two records.  In
the second call the first task uses up the whole outer timeout, so the loop
halts after it; the second task still carries the `isExecuted` flag of the
first call, so it gets no record: the second result has one record for two
configured tasks. -/
theorem C10_second_start_drops_records :
    ((NewSimulator simClock "s" 100000000
        [warmup "a" 10000000 100000000, sleeper "b" 10000000]).Start simClock
        ⟨0, 0⟩).result.Data.length = 2 ∧
    ((NewSimulator simClock "s" 100000000
        [warmup "a" 10000000 100000000, sleeper "b" 10000000]).Start simClock
        ⟨0, 0⟩).sim.functions.map function.isExecuted = [true, true] ∧
    ((((NewSimulator simClock "s" 100000000
        [warmup "a" 10000000 100000000, sleeper "b" 10000000]).Start simClock
        ⟨0, 0⟩).sim).Start simClock
      ((NewSimulator simClock "s" 100000000
        [warmup "a" 10000000 100000000, sleeper "b" 10000000]).Start simClock
        ⟨0, 0⟩).world).result.Data =
      [{ Name := "a", Latency := 10000000, IsDeadlineExceeded := false,
         TimeIn := 100000000, TimeOut := 0, Remark := "" }] := by
  decide

/-! ## Helper lemmas: machine arithmetic -/

/-- Wrapping does nothing inside the `int64` range. -/
theorem wrap64_of_inInt64 (x : Int) (h : inInt64 x) : wrap64 x = x := by
  unfold wrap64
  unfold inInt64 at h
  omega

/-- Truncated division by one million, through floor division. -/
theorem tdiv_million (x : Int) :
    Int.tdiv x 1000000 = if 0 ≤ x then x / 1000000 else -((-x) / 1000000) := by
  split
  · rename_i h
    exact Int.tdiv_eq_ediv h (by decide)
  · rename_i h
    have h1 : Int.tdiv (-(-x)) 1000000 = -(Int.tdiv (-x) 1000000) := Int.neg_tdiv (-x) 1000000
    rw [neg_neg] at h1
    rw [h1, Int.tdiv_eq_ediv (by omega) (by decide)]

/-- The arithmetic of `GetInMillis` when the difference fits `int64`. -/
theorem millisBetween_of_inInt64 (d n : Int) (h : inInt64 (d - n)) :
    millisBetween d n = Int.tdiv (d - n) 1000000 * Millisecond := by
  unfold millisBetween
  simp only [wrap64_of_inInt64 _ h]
  apply wrap64_of_inInt64
  unfold inInt64 at h ⊢
  rw [tdiv_million]
  unfold Millisecond
  split <;> omega

/-! ## Helper lemmas: float64 to integer -/

/-- A float is nonnegative exactly when its mantissa is. -/
theorem F64.toRat_nonneg_iff (x : F64) : 0 ≤ x.toRat ↔ 0 ≤ x.m := by
  unfold F64.toRat
  have h2 : (0 : ℚ) < (2 : ℚ) ^ x.e := zpow_pos (by norm_num) _
  rw [mul_nonneg_iff_of_pos_right h2]
  exact Int.cast_nonneg

/-- A float is nonpositive exactly when its mantissa is. -/
theorem F64.toRat_nonpos_iff (x : F64) : x.toRat ≤ 0 ↔ x.m ≤ 0 := by
  unfold F64.toRat
  have h2 : (0 : ℚ) < (2 : ℚ) ^ x.e := zpow_pos (by norm_num) _
  constructor
  · intro h
    by_contra hm
    have hm1 : (0 : ℚ) < (x.m : ℚ) := by exact_mod_cast (not_le.1 hm)
    exact absurd (mul_pos hm1 h2) (not_lt.2 h)
  · intro h
    have hm1 : (x.m : ℚ) ≤ 0 := by exact_mod_cast h
    exact mul_nonpos_of_nonpos_of_nonneg hm1 h2.le

/-- Discarding the fraction of a nonnegative float is taking its floor. -/
theorem F64.trunc_eq_floor (x : F64) (h : 0 ≤ x.m) : x.trunc = ⌊x.toRat⌋ := by
  unfold F64.trunc F64.toRat
  split
  · rename_i he
    have h2 : (2 : ℚ) ^ x.e = ((2 ^ x.e.toNat : ℤ) : ℚ) := by
      conv_lhs => rw [← Int.toNat_of_nonneg he]
      rw [zpow_natCast]
      push_cast
      rfl
    rw [h2, ← Int.cast_mul, Int.floor_intCast]
  · rename_i he
    have hk : x.e = -((-x.e).toNat : ℤ) := by
      rw [Int.toNat_of_nonneg (by omega)]
      ring
    have h2 : (x.m : ℚ) * (2 : ℚ) ^ x.e = (x.m : ℚ) / ((2 ^ (-x.e).toNat : ℕ) : ℚ) := by
      conv_lhs => rw [hk]
      rw [zpow_neg, zpow_natCast]
      push_cast
      rw [div_eq_mul_inv]
    rw [h2, Rat.floor_intCast_div_natCast, Int.tdiv_eq_ediv h (by positivity)]
    push_cast
    rfl

/-- Discarding the fraction of a nonpositive float is taking its ceiling. -/
theorem F64.trunc_eq_ceil (x : F64) (h : x.m ≤ 0) : x.trunc = ⌈x.toRat⌉ := by
  have h1 := F64.trunc_eq_floor { m := -x.m, e := x.e } (by simpa using h)
  have h2 : F64.trunc { m := -x.m, e := x.e } = -x.trunc := by
    unfold F64.trunc
    split
    · simp
    · simp [Int.neg_tdiv]
  have h3 : F64.toRat { m := -x.m, e := x.e } = -x.toRat := by
    unfold F64.toRat
    push_cast
    ring
  rw [h2, h3, Int.floor_neg] at h1
  omega

/-- The conversion of a float whose value lies in the `int64` range: the floor
of a nonnegative value, the ceiling of a nonpositive one. -/
theorem F64.toInt64_of_inRange (y : F64)
    (hlo : -(9223372036854775808 : ℚ) ≤ y.toRat) (hhi : y.toRat < 9223372036854775808) :
    (0 ≤ y.toRat → y.toInt64 = ⌊y.toRat⌋) ∧ (y.toRat ≤ 0 → y.toInt64 = ⌈y.toRat⌉) := by
  constructor
  · intro h0
    have ht := F64.trunc_eq_floor y ((F64.toRat_nonneg_iff y).1 h0)
    have h1 : (0 : Int) ≤ ⌊y.toRat⌋ := Int.floor_nonneg.2 h0
    have h2 : ⌊y.toRat⌋ < (9223372036854775808 : Int) := by
      rw [Int.floor_lt]
      exact_mod_cast hhi
    unfold F64.toInt64
    rw [if_pos (by rw [ht]; constructor <;> omega), ht]
  · intro h0
    have ht := F64.trunc_eq_ceil y ((F64.toRat_nonpos_iff y).1 h0)
    have h1 : ⌈y.toRat⌉ ≤ (0 : Int) := by
      rw [Int.ceil_le]
      exact_mod_cast h0
    have h2 : (-9223372036854775808 : Int) ≤ ⌈y.toRat⌉ := by
      have h3 : ((-9223372036854775808 : Int) : ℚ) ≤ ((⌈y.toRat⌉ : Int) : ℚ) := by
        push_cast
        exact le_trans hlo (Int.le_ceil _)
      exact_mod_cast h3
    unfold F64.toInt64
    rw [if_pos (by rw [ht]; constructor <;> omega), ht]

/-! ## Helper lemmas: float64 rounding -/

/-- With enough fuel, a number has at most `n` binary digits exactly when it is
below `2 ^ n`. -/
theorem bitLengthAux_le_iff :
    ∀ (fuel a n : Nat), a ≤ fuel → (bitLengthAux fuel a ≤ n ↔ a < 2 ^ n) := by
  intro fuel
  induction fuel with
  | zero =>
    intro a n ha
    have h0 : a = 0 := by omega
    subst h0
    simp [bitLengthAux]
  | succ fuel ih =>
    intro a n ha
    unfold bitLengthAux
    by_cases h0 : a = 0
    · subst h0
      simp
    · rw [if_neg h0]
      have hdiv : a / 2 ≤ fuel := by omega
      cases n with
      | zero =>
        simp only [pow_zero, Nat.lt_one_iff]
        constructor
        · intro h
          omega
        · intro h
          exact absurd h h0
      | succ n =>
        rw [Nat.succ_le_succ_iff, ih (a / 2) n hdiv, pow_succ]
        constructor
        · intro h
          omega
        · intro h
          omega

/-- A number has at most `n` binary digits exactly when it is below `2 ^ n`. -/
theorem bitLength_le_iff (a n : Nat) : bitLength a ≤ n ↔ a < 2 ^ n :=
  bitLengthAux_le_iff a a n (le_refl a)

/-- A mantissa of at most 53 bits is not rounded. -/
theorem F64.round_of_fits (m e : Int) (h : m.natAbs < 2 ^ 53) :
    F64.round m e = { m := m, e := e } := by
  unfold F64.round
  simp only
  rw [if_pos ((bitLength_le_iff _ _).2 h)]

/-- Rounding a quotient to nearest, ties to even, moves it by at most half of
the divisor. -/
theorem round_core (P half q r a : ℕ) (hP : P = 2 * half) (hdm : P * q + r = a)
    (hr : r < P) :
    2 * |(((if half < r ∨ (r = half ∧ q % 2 = 1) then q + 1 else q : ℕ) : ℤ) * (P : ℤ) -
      (a : ℤ))| ≤ (P : ℤ) := by
  subst hdm
  subst hP
  split
  · rename_i h
    have hge : half ≤ r := by
      rcases h with h | h
      · omega
      · omega
    have e1 : ((q + 1 : ℕ) : ℤ) * ((2 * half : ℕ) : ℤ) - ((2 * half * q + r : ℕ) : ℤ) =
        2 * (half : ℤ) - (r : ℤ) := by
      push_cast
      ring
    rw [e1, abs_of_nonneg (by omega)]
    push_cast
    omega
  · rename_i h
    have hle : r ≤ half := by
      by_contra hc
      exact h (Or.inl (by omega))
    have e1 : ((q : ℕ) : ℤ) * ((2 * half : ℕ) : ℤ) - ((2 * half * q + r : ℕ) : ℤ) =
        -(r : ℤ) := by
      push_cast
      ring
    rw [e1, abs_neg, abs_of_nonneg (by omega)]
    push_cast
    omega

/-- Rounding raises the exponent by the number of excess bits, moves the value
by at most half a unit in the last place, and leaves a mantissa of at most 53
bits (`2 ^ 53` itself when the rounding carries). -/
theorem F64.round_spec (m e : Int) :
    (F64.round m e).e = e + ((bitLength m.natAbs - 53 : ℕ) : ℤ) ∧
      2 * |(F64.round m e).m * 2 ^ (bitLength m.natAbs - 53) - m| ≤
        2 ^ (bitLength m.natAbs - 53) ∧
      (F64.round m e).m.natAbs ≤ 2 ^ 53 := by
  unfold F64.round
  simp only
  by_cases hn : bitLength m.natAbs ≤ 53
  · rw [if_pos hn]
    have hs0 : bitLength m.natAbs - 53 = 0 := by omega
    rw [hs0]
    refine ⟨by simp, by simp, ?_⟩
    exact le_of_lt ((bitLength_le_iff _ _).1 hn)
  · rw [if_neg hn]
    have hbig : ¬ m.natAbs < 2 ^ 53 := fun h => hn ((bitLength_le_iff _ _).2 h)
    have hs1 : 1 ≤ bitLength m.natAbs - 53 := by omega
    have hP : (2 : ℕ) ^ (bitLength m.natAbs - 53) = 2 * 2 ^ (bitLength m.natAbs - 53 - 1) := by
      conv_lhs => rw [show bitLength m.natAbs - 53 = (bitLength m.natAbs - 53 - 1) + 1 by omega]
      rw [pow_succ]
      ring
    have hlt : m.natAbs < 2 ^ 53 * 2 ^ (bitLength m.natAbs - 53) := by
      have h1 := (bitLength_le_iff m.natAbs (bitLength m.natAbs)).1 (le_refl _)
      rw [← pow_add]
      rwa [show 53 + (bitLength m.natAbs - 53) = bitLength m.natAbs by omega]
    have hpos : 0 < 2 ^ (bitLength m.natAbs - 53) := by positivity
    have hdm := Nat.div_add_mod m.natAbs (2 ^ (bitLength m.natAbs - 53))
    have hr := Nat.mod_lt m.natAbs hpos
    have hq : m.natAbs / 2 ^ (bitLength m.natAbs - 53) < 2 ^ 53 := by
      rw [Nat.div_lt_iff_lt_mul hpos]
      exact hlt
    have hcore := round_core _ _ _ _ _ hP hdm hr
    have hm0 : m ≠ 0 := by
      intro h0
      apply hbig
      rw [h0]
      decide
    refine ⟨rfl, ?_, ?_⟩
    · have hsm := Int.sign_mul_natAbs m
      have hcast : ((2 ^ (bitLength m.natAbs - 53) : ℕ) : ℤ) =
          (2 : ℤ) ^ (bitLength m.natAbs - 53) := by
        push_cast
        rfl
      rw [hcast] at hcore
      rcases lt_or_gt_of_ne hm0 with hneg | hgt
      · rw [Int.sign_eq_neg_one_of_neg hneg] at hsm ⊢
        rw [← abs_neg] at hcore
        refine le_trans (le_of_eq ?_) hcore
        congr 2
        linear_combination hsm
      · rw [Int.sign_eq_one_of_pos hgt] at hsm ⊢
        refine le_trans (le_of_eq ?_) hcore
        congr 2
        linear_combination hsm
    · rw [Int.natAbs_mul, Int.natAbs_sign_of_nonzero hm0, one_mul, Int.natAbs_ofNat]
      split <;> omega

/-- The rounding error is at most `2 ^ -53` of the value, on mantissas. -/
theorem F64.round_relative (m e : Int) :
    2 ^ 53 * |(F64.round m e).m * 2 ^ (bitLength m.natAbs - 53) - m| ≤ |m| := by
  by_cases hn : bitLength m.natAbs ≤ 53
  · have hs0 : bitLength m.natAbs - 53 = 0 := by omega
    rw [F64.round_of_fits m e ((bitLength_le_iff _ _).1 hn), hs0]
    simp
  · obtain ⟨-, hhalf, -⟩ := F64.round_spec m e
    have hlow : 2 ^ 52 * 2 ^ (bitLength m.natAbs - 53) ≤ m.natAbs := by
      have h1 : ¬ bitLength m.natAbs ≤ bitLength m.natAbs - 1 := by omega
      have h2 := not_lt.1 (fun h => h1 ((bitLength_le_iff _ _).2 h))
      rw [← pow_add]
      rwa [show 52 + (bitLength m.natAbs - 53) = bitLength m.natAbs - 1 by omega]
    have hlowZ : (2 : ℤ) ^ 52 * 2 ^ (bitLength m.natAbs - 53) ≤ |m| := by
      rw [← Int.natCast_natAbs]
      exact_mod_cast hlow
    calc 2 ^ 53 * |(F64.round m e).m * 2 ^ (bitLength m.natAbs - 53) - m|
        = 2 ^ 52 * (2 * |(F64.round m e).m * 2 ^ (bitLength m.natAbs - 53) - m|) := by ring
      _ ≤ 2 ^ 52 * 2 ^ (bitLength m.natAbs - 53) :=
          mul_le_mul_of_nonneg_left hhalf (by positivity)
      _ ≤ |m| := hlowZ

/-- The rounding error is at most `2 ^ -53` of the exact value. -/
theorem F64.round_relative_error (m e : Int) :
    |(F64.round m e).toRat - (m : ℚ) * 2 ^ e| * 2 ^ 53 ≤ |(m : ℚ) * 2 ^ e| := by
  obtain ⟨he, -, -⟩ := F64.round_spec m e
  have hrel := F64.round_relative m e
  unfold F64.toRat
  rw [he]
  have hpe : (0 : ℚ) < (2 : ℚ) ^ e := zpow_pos (by norm_num) _
  have h2 : (2 : ℚ) ^ (e + ((bitLength m.natAbs - 53 : ℕ) : ℤ)) =
      2 ^ e * 2 ^ (bitLength m.natAbs - 53) := by
    rw [zpow_add₀ (by norm_num), zpow_natCast]
  have h3 : ((F64.round m e).m : ℚ) * (2 ^ e * 2 ^ (bitLength m.natAbs - 53)) - (m : ℚ) * 2 ^ e =
      (((F64.round m e).m * 2 ^ (bitLength m.natAbs - 53) - m : ℤ) : ℚ) * 2 ^ e := by
    push_cast
    ring
  rw [h2, h3, abs_mul, abs_mul, abs_of_pos hpe]
  have hrelQ : ((2 ^ 53 * |(F64.round m e).m * 2 ^ (bitLength m.natAbs - 53) - m| : ℤ) : ℚ) ≤
      ((|m| : ℤ) : ℚ) := by exact_mod_cast hrel
  rw [Int.cast_mul, Int.cast_abs, Int.cast_abs] at hrelQ
  have hrelQ2 : (2 : ℚ) ^ 53 *
      |(((F64.round m e).m * 2 ^ (bitLength m.natAbs - 53) - m : ℤ) : ℚ)| ≤ |(m : ℚ)| := by
    have hc : (((2 : ℤ) ^ 53 : ℤ) : ℚ) = (2 : ℚ) ^ 53 := by norm_num
    rw [hc] at hrelQ
    exact hrelQ
  calc |(((F64.round m e).m * 2 ^ (bitLength m.natAbs - 53) - m : ℤ) : ℚ)| * 2 ^ e * 2 ^ 53
      = (2 ^ 53 * |(((F64.round m e).m * 2 ^ (bitLength m.natAbs - 53) - m : ℤ) : ℚ)|) *
          2 ^ e := by ring
    _ ≤ |(m : ℚ)| * 2 ^ e := mul_le_mul_of_nonneg_right hrelQ2 hpe.le

/-- The float64 product that `Get` computes differs from the exact product
`parentRemaining * weight` by at most `2 ^ -53` of it, as long as
`parentRemaining` itself is exactly representable (below `2 ^ 53` nanoseconds,
about 104 days). -/
theorem weightedSlice_relative_error (timeout : Duration) (weight : F64)
    (h : timeout.natAbs < 2 ^ 53) :
    |(weightedSlice timeout weight).toRat - (timeout : ℚ) * weight.toRat| * 2 ^ 53 ≤
      |(timeout : ℚ) * weight.toRat| := by
  have hr := F64.round_relative_error (timeout * weight.m) (0 + weight.e)
  have hv : (((timeout * weight.m : ℤ) : ℚ)) * 2 ^ (0 + weight.e) =
      (timeout : ℚ) * weight.toRat := by
    unfold F64.toRat
    rw [zero_add]
    push_cast
    ring
  rw [hv] at hr
  unfold weightedSlice F64.mul F64.ofInt64
  rw [F64.round_of_fits timeout 0 h]
  exact hr

/-- The weights of the examples are the float64 values nearest to the decimal
fractions they stand for (within half a unit in the last place). -/
theorem f64_weights_nearest :
    |f64_0_2.toRat - 1 / 5| * 2 ^ 56 ≤ 1 ∧ f64_0_5.toRat = 1 / 2 ∧
    |f64_0_3.toRat - 3 / 10| * 2 ^ 55 ≤ 1 ∧ |f64_0_6.toRat - 3 / 5| * 2 ^ 54 ≤ 1 := by
  refine ⟨?_, ?_, ?_, ?_⟩
  · norm_num [F64.toRat, f64_0_2]
    rw [abs_of_pos (by norm_num)]
    norm_num
  · norm_num [F64.toRat, f64_0_5]
  · norm_num [F64.toRat, f64_0_3]
    rw [abs_of_pos (by norm_num)]
    norm_num
  · norm_num [F64.toRat, f64_0_6]
    rw [abs_of_pos (by norm_num)]
    norm_num

/-! ## The deadline gauge and the budget strategies -/

/-- C8, as stated, fails: with the deadline at Unix nanosecond 0 and the clock
reading 1 (the deadline passed one nanosecond ago) `GetInMillis` returns 0,
while deadline minus now, floor-divided to whole milliseconds, is -1ms.  It
also fails when the `int64` subtraction overflows: with the deadline at the
largest `int64` nanosecond and the clock reading -1 the difference wraps and
`GetInMillis` returns a negative duration for a deadline far in the future. -/
theorem C8_floor_counterexample :
    (((NewDeadline simClock).GetInMillis (Context.withDeadline 0) ⟨1, 0⟩).1 = 0 ∧
      specFloorMillis (UnixNano 0) (UnixNano 1) = -1000000 ∧
      ((NewDeadline simClock).GetInMillis (Context.withDeadline 0) ⟨1, 0⟩).1 ≠
        specFloorMillis (UnixNano 0) (UnixNano 1)) ∧
    (((NewDeadline simClock).GetInMillis (Context.withDeadline 9223372036854775807)
        ⟨-1, 0⟩).1 = -9223372036854000000 ∧
      specFloorMillis (UnixNano 9223372036854775807) (UnixNano (-1)) = 9223372036854000000 ∧
      ((NewDeadline simClock).GetInMillis (Context.withDeadline 9223372036854775807)
        ⟨-1, 0⟩).1 ≠ specFloorMillis (UnixNano 9223372036854775807) (UnixNano (-1))) := by
  decide

/-- C8, amended: for a context with deadline instant `D` and a clock reading
`N`, with `d` and `n` their Unix nanoseconds and `d - n` within `int64`,
`GetInMillis` returns `d - n` divided by 1,000,000 with the quotient truncated
toward zero, in milliseconds.  The result is a whole multiple of one
millisecond, lies within one millisecond of `d - n` on the side of zero, is
zero or negative when the deadline has passed, and equals the floor-divided
value exactly when the deadline has not passed or `d - n` is a whole number of
milliseconds. -/
theorem C8_remaining_truncates_toward_zero {W : Type} (dl : Deadline W) (D : Time) (w : W)
    (h : inInt64 (UnixNano D - UnixNano (dl.clock.Now w).1)) :
    (dl.GetInMillis (Context.withDeadline D) w).1 =
      Int.tdiv (UnixNano D - UnixNano (dl.clock.Now w).1) 1000000 * Millisecond ∧
    (∃ k : Int, (dl.GetInMillis (Context.withDeadline D) w).1 = k * Millisecond) ∧
    (UnixNano D ≤ UnixNano (dl.clock.Now w).1 →
      (dl.GetInMillis (Context.withDeadline D) w).1 ≤ 0 ∧
      UnixNano D - UnixNano (dl.clock.Now w).1 ≤ (dl.GetInMillis (Context.withDeadline D) w).1 ∧
      (dl.GetInMillis (Context.withDeadline D) w).1 <
        UnixNano D - UnixNano (dl.clock.Now w).1 + Millisecond) ∧
    (UnixNano (dl.clock.Now w).1 ≤ UnixNano D →
      (dl.GetInMillis (Context.withDeadline D) w).1 =
        specFloorMillis (UnixNano D) (UnixNano (dl.clock.Now w).1)) ∧
    ((dl.GetInMillis (Context.withDeadline D) w).1 =
        specFloorMillis (UnixNano D) (UnixNano (dl.clock.Now w).1) ↔
      (UnixNano (dl.clock.Now w).1 ≤ UnixNano D ∨
        (UnixNano D - UnixNano (dl.clock.Now w).1) % 1000000 = 0)) := by
  have hval : (dl.GetInMillis (Context.withDeadline D) w).1 =
      millisBetween (UnixNano D) (UnixNano (dl.clock.Now w).1) := rfl
  rw [hval, millisBetween_of_inInt64 _ _ h]
  generalize UnixNano D = d at h ⊢
  generalize UnixNano (dl.clock.Now w).1 = n at h ⊢
  have hf : specFloorMillis d n = (d - n) / 1000000 * 1000000 := by
    unfold specFloorMillis Millisecond
    rw [Int.fdiv_eq_ediv _ (by decide)]
  rw [hf, tdiv_million]
  unfold Millisecond
  delta Duration
  by_cases h0 : 0 ≤ d - n
  · simp only [h0, if_true]
    refine ⟨trivial, ⟨_, rfl⟩, ?_, ?_, ?_⟩
    · intro hle
      omega
    · intro _
      trivial
    · constructor
      · intro _
        left
        omega
      · intro _
        trivial
  · simp only [h0, if_false]
    refine ⟨trivial, ⟨_, rfl⟩, ?_, ?_, ?_⟩
    · intro hle
      omega
    · intro hle
      omega
    · constructor
      · intro heq
        right
        omega
      · intro hor
        rcases hor with hor | hor
        · omega
        · omega

/-- C8, amended, instantiated: deadline at 100ms, clock at 1.5ms. -/
theorem C8_remaining_truncates_toward_zero_witness :
    ((NewDeadline simClock).GetInMillis (Context.withDeadline 100000000) ⟨1500000, 0⟩).1 =
      Int.tdiv (UnixNano 100000000 - UnixNano 1500000) 1000000 * Millisecond ∧
    ((NewDeadline simClock).GetInMillis (Context.withDeadline 100000000) ⟨1500000, 0⟩).1 =
      98000000 :=
  ⟨(C8_remaining_truncates_toward_zero (NewDeadline simClock) 100000000 ⟨1500000, 0⟩
      (by decide)).1, by decide⟩

/-- C7, as stated, fails for a nil parent: `Get(nil)` returns at once and
records nothing, so a new `TimeOutContext` of 30ms still reports budget 0. -/
theorem C7_nil_parent_counterexample :
    ((NewTimeOutContext 30000000).Get simClock none ⟨0, 0⟩).2.1.Budget = 0 ∧
    ((NewTimeOutContext 30000000).Get simClock none ⟨0, 0⟩).2.1.Budget ≠ 30000000 := by
  decide

/-- C7, amended: for every `TimeOutContext` with fixed timeout `t` (new, or
used before) and every derivation `Get(parent)` from a non-nil parent, the
recorded `Budget()` afterwards equals `t`, whatever the parent's deadline and
whatever the clock reads; the configured timeout itself is unchanged. -/
theorem C7_fixed_budget_is_timeout {W : Type} (clk : Clock W) (c : TimeOutContext)
    (parent : Context) (w : W) :
    (c.Get clk (some parent) w).2.1.Budget = c.timeOut ∧
    (c.Get clk (some parent) w).2.1.timeOut = c.timeOut ∧
    ∀ t : Duration, ((NewTimeOutContext t).Get clk (some parent) w).2.1.Budget = t :=
  ⟨rfl, rfl, fun _ => rfl⟩

/-- C5, as stated, fails at two inputs with `isPriority = false`.  With the
parent's deadline passed by one millisecond (`parentRemaining = -1ms`) and
weight `2 ^ -20` the product is `-0.95...` nanoseconds: `Get` records budget 0,
its floor is -1.  With `parentRemaining = 10ms` and the float64 nearest to 0.3
the float64 product rounds up to 3,000,000 and `Get` records 3ms, while the
floor of `parentRemaining * weight` is 2,999,999. -/
theorem C5_floor_counterexample :
    (((NewDeadline simClock).GetInMillis (Context.withDeadline 0) ⟨1000000, 0⟩).1 = -1000000 ∧
      ((NewWeightedContext simClock 30000000 { m := 1, e := -20 } false).Get simClock
        (some (Context.withDeadline 0)) ⟨1000000, 0⟩).2.1.Budget = 0 ∧
      specFloorBudget (-1000000) { m := 1, e := -20 } = -1 ∧
      ((NewWeightedContext simClock 30000000 { m := 1, e := -20 } false).Get simClock
        (some (Context.withDeadline 0)) ⟨1000000, 0⟩).2.1.Budget ≠
        specFloorBudget ((NewDeadline simClock).GetInMillis (Context.withDeadline 0)
          ⟨1000000, 0⟩).1 { m := 1, e := -20 }) ∧
    (((NewDeadline simClock).GetInMillis (Context.withDeadline 10000000) ⟨0, 0⟩).1 = 10000000 ∧
      ((NewWeightedContext simClock 30000000 f64_0_3 false).Get simClock
        (some (Context.withDeadline 10000000)) ⟨0, 0⟩).2.1.Budget = 3000000 ∧
      specFloorBudget 10000000 f64_0_3 = 2999999 ∧
      ((NewWeightedContext simClock 30000000 f64_0_3 false).Get simClock
        (some (Context.withDeadline 10000000)) ⟨0, 0⟩).2.1.Budget ≠
        specFloorBudget ((NewDeadline simClock).GetInMillis (Context.withDeadline 10000000)
          ⟨0, 0⟩).1 f64_0_3) := by
  have p1 : ((NewDeadline simClock).GetInMillis (Context.withDeadline 0) ⟨1000000, 0⟩).1 =
      -1000000 := by decide
  have p2 : ((NewDeadline simClock).GetInMillis (Context.withDeadline 10000000) ⟨0, 0⟩).1 =
      10000000 := by decide
  have b1 : ((NewWeightedContext simClock 30000000 { m := 1, e := -20 } false).Get simClock
      (some (Context.withDeadline 0)) ⟨1000000, 0⟩).2.1.Budget = 0 := by decide
  have b2 : ((NewWeightedContext simClock 30000000 f64_0_3 false).Get simClock
      (some (Context.withDeadline 10000000)) ⟨0, 0⟩).2.1.Budget = 3000000 := by decide
  have f1 : specFloorBudget (-1000000) { m := 1, e := -20 } = -1 := by
    unfold specFloorBudget F64.toRat
    rw [Int.floor_eq_iff]
    norm_num
  have f2 : specFloorBudget 10000000 f64_0_3 = 2999999 := by
    unfold specFloorBudget F64.toRat f64_0_3
    rw [Int.floor_eq_iff]
    norm_num
  refine ⟨⟨p1, b1, f1, ?_⟩, ⟨p2, b2, f2, ?_⟩⟩
  · rw [p1, b1, f1]
    decide
  · rw [p2, b2, f2]
    decide

/-- C5, amended: for every `WeightedContext` with `isPriority = false`, every
weight, every threshold and every non-nil parent context with remaining budget
`parentRemaining` (as returned by `GetInMillis`), after `Get` the recorded
`Budget()` is the float64 product `float64(parentRemaining) * weight`
converted to an integer count of nanoseconds by discarding its fraction; when
that float64 product lies in the `int64` range this is its floor if the product
is nonnegative and its ceiling if it is nonpositive.  The float64 product
differs from the exact product `parentRemaining * weight` by at most `2 ^ -53`
of it (for `parentRemaining` below `2 ^ 53` nanoseconds). -/
theorem C5_weighted_budget_truncates {W : Type} (clk : Clock W) (threshold : Duration)
    (weight : F64) (parent : Context) (w : W) :
    ((NewWeightedContext clk threshold weight false).Get clk (some parent) w).2.1.Budget =
      F64.toInt64 (weightedSlice ((NewDeadline clk).GetInMillis parent w).1 weight) ∧
    (-(9223372036854775808 : ℚ) ≤
        (weightedSlice ((NewDeadline clk).GetInMillis parent w).1 weight).toRat →
      (weightedSlice ((NewDeadline clk).GetInMillis parent w).1 weight).toRat <
        9223372036854775808 →
      (0 ≤ (weightedSlice ((NewDeadline clk).GetInMillis parent w).1 weight).toRat →
        ((NewWeightedContext clk threshold weight false).Get clk (some parent) w).2.1.Budget =
          ⌊(weightedSlice ((NewDeadline clk).GetInMillis parent w).1 weight).toRat⌋) ∧
      ((weightedSlice ((NewDeadline clk).GetInMillis parent w).1 weight).toRat ≤ 0 →
        ((NewWeightedContext clk threshold weight false).Get clk (some parent) w).2.1.Budget =
          ⌈(weightedSlice ((NewDeadline clk).GetInMillis parent w).1 weight).toRat⌉)) ∧
    (((NewDeadline clk).GetInMillis parent w).1.natAbs < 2 ^ 53 →
      |(weightedSlice ((NewDeadline clk).GetInMillis parent w).1 weight).toRat -
          (((NewDeadline clk).GetInMillis parent w).1 : ℚ) * weight.toRat| * 2 ^ 53 ≤
        |(((NewDeadline clk).GetInMillis parent w).1 : ℚ) * weight.toRat|) := by
  have hb : ((NewWeightedContext clk threshold weight false).Get clk (some parent) w).2.1.Budget =
      F64.toInt64 (weightedSlice ((NewDeadline clk).GetInMillis parent w).1 weight) := by
    simp [WeightedContext.Get, WeightedContext.Budget, NewWeightedContext, weightedSlice]
  refine ⟨hb, ?_, weightedSlice_relative_error _ _⟩
  intro hlo hhi
  rw [hb]
  exact F64.toInt64_of_inRange _ hlo hhi

/-- C5, amended, instantiated at the three examples of the claim: 99ms with
weight 0.2 gives 19.8ms, 89ms with 0.5 gives 44.5ms, 44ms with 0.3 gives
13.2ms (each the floor of the float64 product). -/
theorem C5_weighted_budget_truncates_witness :
    (((NewWeightedContext simClock 30000000 f64_0_2 false).Get simClock
        (some (Context.withDeadline 100000000)) ⟨1000000, 0⟩).2.1.Budget =
        ⌊(weightedSlice ((NewDeadline simClock).GetInMillis
          (Context.withDeadline 100000000) ⟨1000000, 0⟩).1 f64_0_2).toRat⌋ ∧
      ((NewWeightedContext simClock 30000000 f64_0_2 false).Get simClock
        (some (Context.withDeadline 100000000)) ⟨1000000, 0⟩).2.1.Budget = 19800000) ∧
    (((NewWeightedContext simClock 30000000 f64_0_5 false).Get simClock
        (some (Context.withDeadline 100000000)) ⟨11000000, 0⟩).2.1.Budget =
        ⌊(weightedSlice ((NewDeadline simClock).GetInMillis
          (Context.withDeadline 100000000) ⟨11000000, 0⟩).1 f64_0_5).toRat⌋ ∧
      ((NewWeightedContext simClock 30000000 f64_0_5 false).Get simClock
        (some (Context.withDeadline 100000000)) ⟨11000000, 0⟩).2.1.Budget = 44500000) ∧
    (((NewWeightedContext simClock 30000000 f64_0_3 false).Get simClock
        (some (Context.withDeadline 100000000)) ⟨56000000, 0⟩).2.1.Budget =
        ⌊(weightedSlice ((NewDeadline simClock).GetInMillis
          (Context.withDeadline 100000000) ⟨56000000, 0⟩).1 f64_0_3).toRat⌋ ∧
      ((NewWeightedContext simClock 30000000 f64_0_3 false).Get simClock
        (some (Context.withDeadline 100000000)) ⟨56000000, 0⟩).2.1.Budget = 13200000) := by
  have y1 : weightedSlice ((NewDeadline simClock).GetInMillis
      (Context.withDeadline 100000000) ⟨1000000, 0⟩).1 f64_0_2 =
      { m := 5315022028800000, e := -28 } := by decide
  have y2 : weightedSlice ((NewDeadline simClock).GetInMillis
      (Context.withDeadline 100000000) ⟨11000000, 0⟩).1 f64_0_5 =
      { m := 89000000, e := -1 } := by decide
  have y3 : weightedSlice ((NewDeadline simClock).GetInMillis
      (Context.withDeadline 100000000) ⟨56000000, 0⟩).1 f64_0_3 =
      { m := 7086696038400000, e := -29 } := by decide
  refine ⟨⟨?_, by decide⟩, ⟨?_, by decide⟩, ⟨?_, by decide⟩⟩
  · exact ((C5_weighted_budget_truncates simClock 30000000 f64_0_2
      (Context.withDeadline 100000000) ⟨1000000, 0⟩).2.1
      (by rw [y1]; norm_num [F64.toRat]) (by rw [y1]; norm_num [F64.toRat])).1
      (by rw [y1]; norm_num [F64.toRat])
  · exact ((C5_weighted_budget_truncates simClock 30000000 f64_0_5
      (Context.withDeadline 100000000) ⟨11000000, 0⟩).2.1
      (by rw [y2]; norm_num [F64.toRat]) (by rw [y2]; norm_num [F64.toRat])).1
      (by rw [y2]; norm_num [F64.toRat])
  · exact ((C5_weighted_budget_truncates simClock 30000000 f64_0_3
      (Context.withDeadline 100000000) ⟨56000000, 0⟩).2.1
      (by rw [y3]; norm_num [F64.toRat]) (by rw [y3]; norm_num [F64.toRat])).1
      (by rw [y3]; norm_num [F64.toRat])

/-- C6, as stated, fails at two inputs with `isPriority = true`.  With
`parentRemaining = -1ms`, weight `2 ^ -20` and threshold 0 the product
`-0.95...` is below the threshold, yet `Get` records budget 0, not
`parentRemaining`.  With `parentRemaining = 10ms`, the float64 nearest to 0.3
and threshold 3ms the product `2999999.99...` is below the threshold, yet `Get`
records the weighted slice 3ms, not `parentRemaining`. -/
theorem C6_priority_counterexample :
    ((((NewDeadline simClock).GetInMillis (Context.withDeadline 0) ⟨1000000, 0⟩).1 : ℚ) *
          F64.toRat { m := 1, e := -20 } < ((0 : Duration) : ℚ) ∧
      ((NewDeadline simClock).GetInMillis (Context.withDeadline 0) ⟨1000000, 0⟩).1 = -1000000 ∧
      ((NewWeightedContext simClock 0 { m := 1, e := -20 } true).Get simClock
        (some (Context.withDeadline 0)) ⟨1000000, 0⟩).2.1.Budget = 0 ∧
      ((NewWeightedContext simClock 0 { m := 1, e := -20 } true).Get simClock
        (some (Context.withDeadline 0)) ⟨1000000, 0⟩).2.1.Budget ≠
        ((NewDeadline simClock).GetInMillis (Context.withDeadline 0) ⟨1000000, 0⟩).1) ∧
    ((((NewDeadline simClock).GetInMillis (Context.withDeadline 10000000) ⟨0, 0⟩).1 : ℚ) *
          F64.toRat f64_0_3 < ((3000000 : Duration) : ℚ) ∧
      ((NewDeadline simClock).GetInMillis (Context.withDeadline 10000000) ⟨0, 0⟩).1 = 10000000 ∧
      ((NewWeightedContext simClock 3000000 f64_0_3 true).Get simClock
        (some (Context.withDeadline 10000000)) ⟨0, 0⟩).2.1.Budget = 3000000 ∧
      ((NewWeightedContext simClock 3000000 f64_0_3 true).Get simClock
        (some (Context.withDeadline 10000000)) ⟨0, 0⟩).2.1.Budget ≠
        ((NewDeadline simClock).GetInMillis (Context.withDeadline 10000000) ⟨0, 0⟩).1) := by
  have p1 : ((NewDeadline simClock).GetInMillis (Context.withDeadline 0) ⟨1000000, 0⟩).1 =
      -1000000 := by decide
  have p2 : ((NewDeadline simClock).GetInMillis (Context.withDeadline 10000000) ⟨0, 0⟩).1 =
      10000000 := by decide
  refine ⟨⟨?_, p1, by decide, by decide⟩, ⟨?_, p2, by decide, by decide⟩⟩
  · rw [p1]
    norm_num [F64.toRat]
  · rw [p2]
    norm_num [F64.toRat, f64_0_3]

/-- C6, amended: for every `WeightedContext` with `isPriority = true` and every
non-nil parent context with remaining budget `parentRemaining`: if the weighted
slice as `Get` computes it (the float64 product
`float64(parentRemaining) * weight` with its fraction discarded) is below
`timeoutThreshold`, then after `Get` the recorded `Budget()` equals
`parentRemaining` exactly, and otherwise it is that slice.  The slice is below
the threshold whenever the float64 product (within the `int64` range) is below
the threshold and either the product is nonnegative or the threshold is
positive. -/
theorem C6_priority_keeps_whole_budget {W : Type} (clk : Clock W) (threshold : Duration)
    (weight : F64) (parent : Context) (w : W) :
    (F64.toInt64 (weightedSlice ((NewDeadline clk).GetInMillis parent w).1 weight) < threshold →
      ((NewWeightedContext clk threshold weight true).Get clk (some parent) w).2.1.Budget =
        ((NewDeadline clk).GetInMillis parent w).1) ∧
    (threshold ≤ F64.toInt64 (weightedSlice ((NewDeadline clk).GetInMillis parent w).1 weight) →
      ((NewWeightedContext clk threshold weight true).Get clk (some parent) w).2.1.Budget =
        F64.toInt64 (weightedSlice ((NewDeadline clk).GetInMillis parent w).1 weight)) ∧
    (-(9223372036854775808 : ℚ) ≤
        (weightedSlice ((NewDeadline clk).GetInMillis parent w).1 weight).toRat →
      (weightedSlice ((NewDeadline clk).GetInMillis parent w).1 weight).toRat <
        9223372036854775808 →
      (weightedSlice ((NewDeadline clk).GetInMillis parent w).1 weight).toRat <
        (threshold : ℚ) →
      (0 ≤ (weightedSlice ((NewDeadline clk).GetInMillis parent w).1 weight).toRat ∨
        0 < threshold) →
      ((NewWeightedContext clk threshold weight true).Get clk (some parent) w).2.1.Budget =
        ((NewDeadline clk).GetInMillis parent w).1) := by
  have hlt : F64.toInt64 (weightedSlice ((NewDeadline clk).GetInMillis parent w).1 weight) <
      threshold →
      ((NewWeightedContext clk threshold weight true).Get clk (some parent) w).2.1.Budget =
        ((NewDeadline clk).GetInMillis parent w).1 := by
    intro h
    simp only [WeightedContext.Get, WeightedContext.Budget, NewWeightedContext, weightedSlice]
      at h ⊢
    rw [if_pos ⟨h, trivial⟩]
  refine ⟨hlt, ?_, ?_⟩
  · intro h
    simp only [WeightedContext.Get, WeightedContext.Budget, NewWeightedContext, weightedSlice]
      at h ⊢
    rw [if_neg]
    intro hc
    exact absurd hc.1 (not_lt.2 h)
  · intro hlo hhi hthr hsign
    apply hlt
    obtain ⟨hfl, hce⟩ := F64.toInt64_of_inRange _ hlo hhi
    by_cases h0 : 0 ≤ (weightedSlice ((NewDeadline clk).GetInMillis parent w).1 weight).toRat
    · rw [hfl h0, Int.floor_lt]
      exact hthr
    · have h1 := le_of_lt (not_le.1 h0)
      have hpos : 0 < threshold := by
        rcases hsign with hs | hs
        · exact absurd hs h0
        · exact hs
      rw [hce h1]
      have hc0 : ⌈(weightedSlice ((NewDeadline clk).GetInMillis parent w).1 weight).toRat⌉ ≤
          (0 : Int) := by
        rw [Int.ceil_le]
        exact_mod_cast h1
      exact lt_of_le_of_lt hc0 hpos

/-- C6, amended, instantiated at the example of the claim: 31ms remaining,
weight 0.6, threshold 30ms; the slice 18.6ms is below the threshold and the
recorded budget is 31ms. -/
theorem C6_priority_keeps_whole_budget_witness :
    F64.toInt64 (weightedSlice ((NewDeadline simClock).GetInMillis
        (Context.withDeadline 100000000) ⟨69000000, 0⟩).1 f64_0_6) = 18600000 ∧
    ((NewDeadline simClock).GetInMillis (Context.withDeadline 100000000) ⟨69000000, 0⟩).1 =
      31000000 ∧
    ((NewWeightedContext simClock 30000000 f64_0_6 true).Get simClock
      (some (Context.withDeadline 100000000)) ⟨69000000, 0⟩).2.1.Budget = 31000000 :=
  ⟨by decide, by decide,
    (C6_priority_keeps_whole_budget simClock 30000000 f64_0_6
      (Context.withDeadline 100000000) ⟨69000000, 0⟩).1 (by decide)⟩

end timeoutsimulator
